import Mathlib

/-!
Shallow embedding of the core recommendation pipeline of the
SHL-GenAI-Recommendation-System repository
(`src/recommender/rerank.py`, `src/recommender/retrieval.py`,
`src/recommender/indexer.py`, `src/recommender/recommend.py`).

Modelling conventions: Python strings are `String` / `List Char`, floats are
`ℚ`, dictionaries with optional keys are structures with `Option` fields, a
raised `ValueError` is `Except.error`, and the external collaborators
(the sentence-embedding model and the job-description fetcher) are opaque
function parameters.
-/

namespace SHL

/-- Python `\s` / `str.strip()` whitespace class (ASCII). -/
def isSpaceChar (c : Char) : Bool :=
  c = ' ' || c = '\t' || c = '\n' || c = '\r' || c = '\x0b' || c = '\x0c'

/-- Python `str.lower()` applied to a string, as a character list (ASCII). -/
def lowerList (s : String) : List Char := s.toList.map Char.toLower

/-- Python `str.upper()` (ASCII). -/
def pyUpper (s : String) : String := String.mk (s.toList.map Char.toUpper)

/-- Strip whitespace from both ends of a character list. -/
def stripChars (l : List Char) : List Char :=
  ((l.dropWhile isSpaceChar).reverse.dropWhile isSpaceChar).reverse

/-- Python `str.strip()`. -/
def pyStrip (s : String) : String := String.mk (stripChars s.toList)

/-- Value of a decimal digit run, most significant first. -/
def digitsToNat (ds : List Char) : ℕ :=
  ds.foldl (fun a c => 10 * a + (c.toNat - '0'.toNat)) 0

/-- One attempt of the regex `(\d+(?:\.\d+)?)\s*<unit>` (with `re.IGNORECASE`)
anchored at the head of `s`, returning the captured number.  Maximal munch is
exact here: no backtracking can ever help this pattern, because digits, `'.'`,
whitespace and the unit letters are pairwise disjoint character classes.  The
trailing `s?` of `hours?` / `mins?` never affects acceptance (it always
matches, possibly empty), so `unit` is just `hour` / `min`. -/
def matchNumberUnit (unit : List Char) (s : List Char) : Option ℚ :=
  let ds := s.takeWhile Char.isDigit
  if ds.isEmpty then none else
  let rest := s.dropWhile Char.isDigit
  let vr : ℚ × List Char :=
    match rest with
    | '.' :: r =>
      let fs := r.takeWhile Char.isDigit
      if fs.isEmpty then ((digitsToNat ds : ℚ), rest)
      else ((digitsToNat ds : ℚ) + (digitsToNat fs : ℚ) / ((10 : ℚ) ^ fs.length),
            r.dropWhile Char.isDigit)
    | _ => ((digitsToNat ds : ℚ), rest)
  let rest2 := vr.2.dropWhile isSpaceChar
  if unit.isPrefixOf (rest2.map Char.toLower) then some vr.1 else none

/-- Python `re.search`: try each position left to right, first match wins. -/
def searchNumberUnit (unit : List Char) : List Char → Option ℚ
  | [] => none
  | c :: t =>
    match matchNumberUnit unit (c :: t) with
    | some v => some v
    | none => searchNumberUnit unit t

/-- `rerank.infer_max_duration`: the hours pattern is tried before the minutes
pattern; `int(value * multiplier)` truncates, and the parsed values are
non-negative, so truncation is the floor. -/
def infer_max_duration (query : String) : Option ℤ :=
  match searchNumberUnit ("hour".toList) query.toList with
  | some v => some (v * 60).floor
  | none =>
  match searchNumberUnit ("min".toList) query.toList with
  | some v => some (v * 1).floor
  | none => none

/-- `technical_kw` list from `rerank.infer_desired_domains` (the source really
does list `expertise` twice). -/
def technical_kw : List String :=
  ["java", "python", "sql", "javascript", "react", "developer", "engineer",
   "frontend", "backend", "coding", "automation", "testing", "qa", "technical",
   "programming", "knowledge", "skill", "proficient", "expertise", "expertise"]

/-- `behavioral_kw` list from `rerank.infer_desired_domains`. -/
def behavioral_kw : List String :=
  ["collaborate", "communication", "personality", "leadership", "team",
   "interpersonal", "behavioral", "soft skill", "culture", "fit", "manager",
   "management"]

/-- `cognitive_kw` list from `rerank.infer_desired_domains`. -/
def cognitive_kw : List String :=
  ["cognitive", "reasoning", "analytical", "logical", "problem", "iq",
   "aptitude", "numeracy", "verbal", "ability"]

/-- Python substring test `needle in hay`. -/
def containsSub (hay : List Char) (needle : List Char) : Bool :=
  hay.tails.any fun t => needle.isPrefixOf t

/-- The dict returned by `rerank.infer_desired_domains`. -/
structure DesiredDomains where
  wants_technical : Bool
  wants_behavioral : Bool
  wants_cognitive : Bool
deriving DecidableEq

/-- `rerank.infer_desired_domains`. -/
def infer_desired_domains (query : String) : DesiredDomains :=
  let query_lower := lowerList query
  { wants_technical := technical_kw.any fun kw => containsSub query_lower kw.toList
    wants_behavioral := behavioral_kw.any fun kw => containsSub query_lower kw.toList
    wants_cognitive := cognitive_kw.any fun kw => containsSub query_lower kw.toList }

/-- `rerank.categorize_test_type`; the argument is `None` or a string in the
callers, and `if not test_type` sends both `None` and `""` to `other`. -/
def categorize_test_type (test_type : Option String) : String :=
  match test_type with
  | none => "other"
  | some s =>
    if s = "" then "other" else
    let t := pyStrip (pyUpper s)
    if t = "K" then "technical"
    else if t = "P" then "behavioral"
    else if t = "C" then "cognitive"
    else if t = "L" then "behavioral"
    else if t = "V" then "technical"
    else if t = "N" then "cognitive"
    else if t = "R" then "cognitive"
    else "other"

/-- A candidate dict flowing through retrieval and reranking; every key the
source reads is optional (`dict.get`). -/
structure Candidate where
  name : Option String
  url : Option String
  test_type : Option String
  duration_minutes : Option ℤ
  category : Option String
  retrieval_score : Option ℚ
deriving DecidableEq

/-- `rerank.apply_duration_filter`. -/
def apply_duration_filter (candidates : List Candidate) (max_minutes : Option ℤ) :
    List Candidate :=
  match max_minutes with
  | none => candidates
  | some m =>
    candidates.filter fun c =>
      match c.duration_minutes with
      | none => true
      | some d => decide (d ≤ m)

/-- The bucket of candidates whose test-type code maps to `domain`
(`balance_by_domains` builds the four buckets in one rank-order-preserving
pass; the `other` bucket is built by the source but never read, so it is not
materialised here). -/
def bucket (domain : String) (candidates : List Candidate) : List Candidate :=
  candidates.filter fun c => categorize_test_type c.test_type == domain

/-- `num_domains = sum([wants_tech, wants_behav, wants_cog])`. -/
def numDomains (d : DesiredDomains) : ℕ :=
  (if d.wants_technical then 1 else 0) + (if d.wants_behavioral then 1 else 0) +
    (if d.wants_cognitive then 1 else 0)

/-- The per-domain allocation of `balance_by_domains`: in fixed priority order
technical, behavioral, cognitive, take up to `slots` candidates from each
desired domain's bucket. -/
def baseSelection (cs : List Candidate) (d : DesiredDomains) (slots : ℕ) :
    List Candidate :=
  (if d.wants_technical then (bucket "technical" cs).take slots else []) ++
  (if d.wants_behavioral then (bucket "behavioral" cs).take slots else []) ++
  (if d.wants_cognitive then (bucket "cognitive" cs).take slots else [])

/-- The fill step of `balance_by_domains`: `remaining = k - len(result)`; when
positive, append candidates not already selected, in original rank order.
Natural subtraction mirrors the Python guard `if remaining > 0`. -/
def fillRemaining (cs : List Candidate) (result : List Candidate) (k : ℕ) :
    List Candidate :=
  if 0 < k - result.length then
    result ++ (cs.filter fun c => decide (c ∉ result)).take (k - result.length)
  else result

/-- `rerank.balance_by_domains`. -/
def balance_by_domains (candidates : List Candidate) (desired_domains : DesiredDomains)
    (k : ℕ) : List Candidate :=
  if !(desired_domains.wants_technical || desired_domains.wants_behavioral ||
       desired_domains.wants_cognitive) then
    candidates.take k
  else if numDomains desired_domains = 0 then
    candidates.take k
  else
    (fillRemaining candidates
      (baseSelection candidates desired_domains (max 1 (k / numDomains desired_domains)))
      k).take k

/-- `rerank.rerank`. -/
def rerank (query : String) (candidates : List Candidate) (k : ℕ) : List Candidate :=
  let max_duration := infer_max_duration query
  let domains := infer_desired_domains query
  let filtered := apply_duration_filter candidates max_duration
  let balanced := balance_by_domains filtered domains k
  balanced.take k

/-- Modelled from the spec: the similarity computed by the external FAISS
`IndexFlatIP` is the inner product of the query with each stored vector. -/
def dot (a b : List ℚ) : ℚ :=
  ((a.zip b).map fun p => p.1 * p.2).foldl (· + ·) 0

/-- Modelled from the spec: `faiss.normalize_L2` scales a vector to unit
Euclidean length (the zero vector is left unchanged).  The true factor
`1 / ‖v‖` is irrational in general, so this model scales by the positive
rational `1 / ⟨v, v⟩` instead; any positive scaling of the query preserves the
sign and relative order of every similarity score, which is all the
specification claims about `search`. -/
def normalize_L2 (v : List ℚ) : List ℚ :=
  let n := dot v v
  if n = 0 then v else v.map fun x => x / n

/-- Modelled from the spec: the order in which the external FAISS flat index
returns its top-k hits — descending similarity score, ties broken by original
row order. -/
def searchRel (a b : ℕ × ℚ) : Prop :=
  b.2 < a.2 ∨ (a.2 = b.2 ∧ a.1 ≤ b.1)

instance : DecidableRel searchRel := fun a b => by
  unfold searchRel
  infer_instance

instance : IsTotal (ℕ × ℚ) searchRel := by
  constructor
  intro a b
  rcases lt_trichotomy a.2 b.2 with h | h | h
  · exact Or.inr (Or.inl h)
  · rcases le_total a.1 b.1 with h1 | h1
    · exact Or.inl (Or.inr ⟨h, h1⟩)
    · exact Or.inr (Or.inr ⟨h.symm, h1⟩)
  · exact Or.inl (Or.inl h)

instance : IsTrans (ℕ × ℚ) searchRel := by
  constructor
  intro a b c hab hbc
  rcases hab with h1 | ⟨h1, h1i⟩ <;> rcases hbc with h2 | ⟨h2, h2i⟩
  · exact Or.inl (h2.trans h1)
  · exact Or.inl (h2 ▸ h1)
  · exact Or.inl (h1 ▸ h2)
  · exact Or.inr ⟨h1.trans h2, h1i.trans h2i⟩

/-- A loaded `CatalogIndex` (`indexer.CatalogIndex` in the `READY` state):
the ordered stored vectors and the parallel metadata array. -/
structure CatalogIndex where
  vecs : List (List ℚ)
  meta : List Candidate

/-- `CatalogIndex.get_size`: `self.index.ntotal`. -/
def CatalogIndex.get_size (idx : CatalogIndex) : ℕ := idx.vecs.length

/-- The `(row, score)` pairs of `CatalogIndex.search`, before projecting:
normalize the query, score every stored vector, stable-sort descending, keep
`min(top_k, ntotal)`. -/
def CatalogIndex.searchPairs (idx : CatalogIndex) (query_vec : List ℚ) (top_k : ℕ) :
    List (ℕ × ℚ) :=
  let q := normalize_L2 query_vec
  let scored := (idx.vecs.map fun v => dot q v).enum
  (List.insertionSort searchRel scored).take (min top_k idx.vecs.length)

/-- `CatalogIndex.search`: returns `(scores, metadata)`; rows are looked up in
the metadata array, dropping any out-of-range row as the source's
`if i < len(self.meta)` guard does. -/
def CatalogIndex.search (idx : CatalogIndex) (query_vec : List ℚ) (top_k : ℕ) :
    List ℚ × List Candidate :=
  let top := idx.searchPairs query_vec top_k
  (top.map Prod.snd, top.filterMap fun p => idx.meta[p.1]?)

/-- `retrieval.RecommenderService`: the index plus the two opaque
collaborators (embedding model, job-description fetcher), modelled as pure
functions. -/
structure RecommenderService where
  index : CatalogIndex
  embed_text : String → List ℚ
  fetch_jd_from_url : String → String

/-- Python truthiness of an optional string: `None` and `""` are falsy. -/
def optTruthy : Option String → Bool
  | none => false
  | some s => s != ""

/-- The `ValueError` message of `normalize_input` (quotes elided). -/
def inputErrorMsg : String := "Either query_text or jd_url must be provided"

/-- `RecommenderService.normalize_input`; the raised `ValueError` is
`Except.error`. -/
def RecommenderService.normalize_input (svc : RecommenderService)
    (query_text : Option String) (jd_url : Option String) : Except String String :=
  if optTruthy jd_url then
    let jd_text := svc.fetch_jd_from_url (jd_url.getD "")
    if optTruthy query_text then
      Except.ok (pyStrip (query_text.getD "") ++ "\n\n" ++ jd_text)
    else
      Except.ok jd_text
  else if optTruthy query_text then
    Except.ok (pyStrip (query_text.getD ""))
  else
    Except.error inputErrorMsg

/-- `RecommenderService.retrieve_candidates`: embed, search, attach the
similarity score to each returned metadata record. -/
def RecommenderService.retrieve_candidates (svc : RecommenderService)
    (query : String) (top_k : ℕ) : List Candidate :=
  let q_vec := svc.embed_text query
  let sr := svc.index.search q_vec top_k
  (sr.2.zip sr.1).map fun p => { p.1 with retrieval_score := some p.2 }

/-- One output record of `RecommendationEngine.recommend`. -/
structure Recommendation where
  assessment_name : String
  assessment_url : String
  test_type : Option String
  duration_minutes : Option ℤ
  category : Option String
  synthetic : Bool
deriving DecidableEq

/-- The output-record construction inside `RecommendationEngine.recommend`:
`synthetic` is `c.get("url") is None`. -/
def formatRecommendation (c : Candidate) : Recommendation :=
  { assessment_name := c.name.getD "Unknown"
    assessment_url := c.url.getD ""
    test_type := c.test_type
    duration_minutes := c.duration_minutes
    category := c.category
    synthetic := c.url.isNone }

/-- `recommend.RecommendationEngine`. -/
structure RecommendationEngine where
  service : RecommenderService

/-- `RecommendationEngine.recommend`: normalize → retrieve 50 → rerank →
format.  The `ValueError` raised by `normalize_input` propagates. -/
def RecommendationEngine.recommend (e : RecommendationEngine)
    (query : Option String) (jd_url : Option String) (top_k : ℕ) :
    Except String (List Recommendation) :=
  match e.service.normalize_input query jd_url with
  | Except.error m => Except.error m
  | Except.ok text =>
    let candidates := e.service.retrieve_candidates text 50
    if candidates.isEmpty then Except.ok []
    else Except.ok ((rerank text candidates top_k).map formatRecommendation)

/-- Sample catalog entry used for concrete witnesses. -/
def sampleCandidate : Candidate :=
  { name := some "A", url := none, test_type := some "K",
    duration_minutes := some 30, category := some "Test", retrieval_score := none }

/-- A one-item loaded index for concrete witnesses. -/
def sampleIndex : CatalogIndex := { vecs := [[1]], meta := [sampleCandidate] }

/-- A concrete service over `sampleIndex` with trivial collaborators. -/
def sampleService : RecommenderService :=
  { index := sampleIndex, embed_text := fun _ => [1],
    fetch_jd_from_url := fun _ => "JD TEXT" }

/-- A concrete engine for witnesses. -/
def sampleEngine : RecommendationEngine := { service := sampleService }

/-- Candidate with a 45-minute duration, for the duration-filter examples. -/
def cand45 : Candidate :=
  { name := some "c45", url := none, test_type := none,
    duration_minutes := some 45, category := none, retrieval_score := none }

/-- Candidate with no duration, for the duration-filter examples. -/
def candNoDur : Candidate :=
  { name := some "cnd", url := none, test_type := none,
    duration_minutes := none, category := none, retrieval_score := none }

/-- A technical-bucket candidate (`test_type = "K"`) with a distinguishing id. -/
def tcand (i : ℤ) : Candidate :=
  { name := some "t", url := none, test_type := some "K",
    duration_minutes := some i, category := none, retrieval_score := none }

/-- A behavioral-bucket candidate (`test_type = "P"`) with a distinguishing id. -/
def bcand (i : ℤ) : Candidate :=
  { name := some "b", url := none, test_type := some "P",
    duration_minutes := some i, category := none, retrieval_score := none }

/-! ### Helper lemmas -/

lemma isPrefixOf_append_self (a b : List Char) : a.isPrefixOf (a ++ b) = true := by
  induction a with
  | nil => simp [List.isPrefixOf]
  | cons c t ih => simp [List.isPrefixOf, ih]

lemma containsSub_of_parts (p n s : List Char) :
    containsSub (p ++ n ++ s) n = true := by
  unfold containsSub
  rw [List.any_eq_true]
  refine ⟨n ++ s, ?_, isPrefixOf_append_self n s⟩
  rw [List.mem_tails]
  exact ⟨p, (List.append_assoc p n s).symm⟩

lemma mem_bucket {d : String} {cs : List Candidate} {c : Candidate}
    (h : c ∈ bucket d cs) : c ∈ cs ∧ categorize_test_type c.test_type = d := by
  unfold bucket at h
  have hm := List.mem_filter.mp h
  exact ⟨hm.1, by simpa using hm.2⟩

lemma bucket_disjoint {s t : String} (hst : s ≠ t) (cs : List Candidate) :
    List.Disjoint (bucket s cs) (bucket t cs) := by
  intro c hcs hct
  exact hst ((mem_bucket hcs).2.symm.trans (mem_bucket hct).2)

lemma ite_take_sublist (w : Bool) (l : List Candidate) (n : ℕ) :
    List.Sublist (if w then l.take n else []) l := by
  cases w
  · simp
  · simp [List.take_sublist]

lemma baseSelection_subset (cs : List Candidate) (d : DesiredDomains) (n : ℕ) :
    ∀ c ∈ baseSelection cs d n, c ∈ cs := by
  intro c hc
  unfold baseSelection at hc
  rcases List.mem_append.mp hc with h | h
  · rcases List.mem_append.mp h with h1 | h1
    · exact (mem_bucket ((ite_take_sublist _ _ _).subset h1)).1
    · exact (mem_bucket ((ite_take_sublist _ _ _).subset h1)).1
  · exact (mem_bucket ((ite_take_sublist _ _ _).subset h)).1

lemma baseSelection_nodup (cs : List Candidate) (d : DesiredDomains) (n : ℕ)
    (h : cs.Nodup) : (baseSelection cs d n).Nodup := by
  have hb : ∀ s : String, (bucket s cs).Nodup := fun _ => h.filter _
  have dj : ∀ (s t : String), s ≠ t → ∀ (w w' : Bool),
      List.Disjoint (if w then (bucket s cs).take n else [])
        (if w' then (bucket t cs).take n else []) := by
    intro s t hst w w' c h1 h2
    exact bucket_disjoint hst cs ((ite_take_sublist w _ n).subset h1)
      ((ite_take_sublist w' _ n).subset h2)
  unfold baseSelection
  refine List.Nodup.append
    (List.Nodup.append
      (List.Nodup.sublist (ite_take_sublist _ _ _) (hb "technical"))
      (List.Nodup.sublist (ite_take_sublist _ _ _) (hb "behavioral"))
      (dj "technical" "behavioral" (by decide) _ _))
    (List.Nodup.sublist (ite_take_sublist _ _ _) (hb "cognitive")) ?_
  rw [List.disjoint_append_left]
  exact ⟨dj "technical" "cognitive" (by decide) _ _,
         dj "behavioral" "cognitive" (by decide) _ _⟩

lemma fillRemaining_subset (cs result : List Candidate) (k : ℕ)
    (hres : ∀ c ∈ result, c ∈ cs) : ∀ c ∈ fillRemaining cs result k, c ∈ cs := by
  intro c hc
  unfold fillRemaining at hc
  split at hc
  · rcases List.mem_append.mp hc with h | h
    · exact hres c h
    · exact List.mem_of_mem_filter ((List.take_sublist _ _).subset h)
  · exact hres c hc

lemma fillRemaining_nodup (cs result : List Candidate) (k : ℕ)
    (hres : result.Nodup) (hcs : cs.Nodup) : (fillRemaining cs result k).Nodup := by
  unfold fillRemaining
  split
  · refine hres.append
      (List.Nodup.sublist (List.take_sublist _ _) (hcs.filter _)) ?_
    intro c h1 h2
    have h3 := (List.mem_filter.mp ((List.take_sublist _ _).subset h2)).2
    exact (of_decide_eq_true h3) h1
  · exact hres

lemma balance_by_domains_length_le (cs : List Candidate) (d : DesiredDomains)
    (k : ℕ) : (balance_by_domains cs d k).length ≤ k := by
  unfold balance_by_domains
  split
  · exact List.length_take_le _ _
  split
  · exact List.length_take_le _ _
  · exact List.length_take_le _ _

lemma balance_by_domains_subset (cs : List Candidate) (d : DesiredDomains)
    (k : ℕ) : ∀ c ∈ balance_by_domains cs d k, c ∈ cs := by
  intro c hc
  unfold balance_by_domains at hc
  split at hc
  · exact (List.take_sublist _ _).subset hc
  split at hc
  · exact (List.take_sublist _ _).subset hc
  · exact fillRemaining_subset cs _ k (baseSelection_subset cs d _) c
      ((List.take_sublist _ _).subset hc)

lemma balance_by_domains_nodup (cs : List Candidate) (d : DesiredDomains)
    (k : ℕ) (h : cs.Nodup) : (balance_by_domains cs d k).Nodup := by
  unfold balance_by_domains
  split
  · exact List.Nodup.sublist (List.take_sublist _ _) h
  split
  · exact List.Nodup.sublist (List.take_sublist _ _) h
  · exact List.Nodup.sublist (List.take_sublist _ _)
      (fillRemaining_nodup cs _ _ (baseSelection_nodup cs d _ h) h)

lemma apply_duration_filter_sublist (cs : List Candidate) (m : Option ℤ) :
    List.Sublist (apply_duration_filter cs m) cs := by
  cases m
  · exact List.Sublist.refl _
  · exact List.filter_sublist _

lemma rerank_length_le (q : String) (cs : List Candidate) (k : ℕ) :
    (rerank q cs k).length ≤ k :=
  List.length_take_le _ _

lemma rerank_subset (q : String) (cs : List Candidate) (k : ℕ) :
    ∀ c ∈ rerank q cs k, c ∈ cs := by
  intro c hc
  unfold rerank at hc
  have h1 := (List.take_sublist _ _).subset hc
  have h2 := balance_by_domains_subset _ _ _ c h1
  exact (apply_duration_filter_sublist cs _).subset h2

lemma rerank_nodup (q : String) (cs : List Candidate) (k : ℕ) (h : cs.Nodup) :
    (rerank q cs k).Nodup :=
  List.Nodup.sublist (List.take_sublist _ _)
    (balance_by_domains_nodup _ _ _
      (List.Nodup.sublist (apply_duration_filter_sublist cs _) h))

/-! ### Claim theorems -/

/-- Claim C2: `balance_by_domains` returns the first `k` candidates unchanged
when no domain is desired; and with technical and behavioral desired, `k = 10`
and at least 5 candidates in each of those buckets, it returns exactly the
first 5 technical candidates followed by the first 5 behavioral candidates,
each in its bucket's original rank order (`slotsPerDomain = max(1, 10 div 2) = 5`,
and the fill step then has no slot left). -/
theorem balance_by_domains_spec :
    (∀ (cs : List Candidate) (k : ℕ),
      balance_by_domains cs ⟨false, false, false⟩ k = cs.take k) ∧
    (∀ cs : List Candidate,
      5 ≤ (bucket "technical" cs).length →
      5 ≤ (bucket "behavioral" cs).length →
      balance_by_domains cs ⟨true, true, false⟩ 10 =
        (bucket "technical" cs).take 5 ++ (bucket "behavioral" cs).take 5) := by
  constructor
  · intro cs k
    rfl
  · intro cs h1 h2
    have hbase : baseSelection cs ⟨true, true, false⟩ 5 =
        (bucket "technical" cs).take 5 ++ (bucket "behavioral" cs).take 5 := by
      unfold baseSelection
      simp
    have hlen :
        ((bucket "technical" cs).take 5 ++ (bucket "behavioral" cs).take 5).length
          = 10 := by
      rw [List.length_append, List.length_take, List.length_take]
      omega
    show (fillRemaining cs (baseSelection cs ⟨true, true, false⟩ 5) 10).take 10 = _
    rw [hbase]
    unfold fillRemaining
    rw [hlen]
    simp only [Nat.sub_self, lt_self_iff_false, if_false]
    exact List.take_of_length_le (le_of_eq hlen)

/-- C2 witness: eleven interleaved candidates, five-plus in each bucket. -/
def c2List : List Candidate :=
  [tcand 1, bcand 1, tcand 2, bcand 2, tcand 3, bcand 3, tcand 4, bcand 4,
   tcand 5, bcand 5, tcand 6]

/-- Witness for C2: the balanced-split clause at a concrete candidate list. -/
theorem balance_by_domains_spec_witness :
    5 ≤ (bucket "technical" c2List).length ∧
    5 ≤ (bucket "behavioral" c2List).length ∧
    balance_by_domains c2List ⟨true, true, false⟩ 10 =
      (bucket "technical" c2List).take 5 ++ (bucket "behavioral" c2List).take 5 :=
  ⟨by decide, by decide, balance_by_domains_spec.2 c2List (by decide) (by decide)⟩

/-- Claim C8: `rerank` returns at most `k` records, every output record occurs
in the input candidate list, and distinct input candidates are never
duplicated in the output. -/
theorem rerank_props (q : String) (cs : List Candidate) (k : ℕ) :
    (rerank q cs k).length ≤ k ∧
    (∀ c ∈ rerank q cs k, c ∈ cs) ∧
    (cs.Nodup → (rerank q cs k).Nodup) :=
  ⟨rerank_length_le q cs k, rerank_subset q cs k, rerank_nodup q cs k⟩

/-- Witness for C8: the membership and no-duplicate clauses at a concrete
one-candidate input. -/
theorem rerank_props_witness :
    (tcand 1 ∈ rerank "q" [tcand 1] 5) ∧ (tcand 1 ∈ [tcand 1]) ∧
    ([tcand 1] : List Candidate).Nodup ∧ (rerank "q" [tcand 1] 5).Nodup :=
  ⟨by decide, (rerank_props "q" [tcand 1] 5).2.1 (tcand 1) (by decide),
   by decide, (rerank_props "q" [tcand 1] 5).2.2 (by decide)⟩

/-- Claim C4: `infer_max_duration` checks the hours pattern before the minutes
pattern; the first pattern matching anywhere wins, a fractional hours value is
multiplied by 60 and truncated, and the result is `none` when neither pattern
matches.  Concretely: `"complete within 1.5 hours" ↦ 90`,
`"should take 40 mins" ↦ 40`, `"no time limit mentioned" ↦ none`, and the
hours pattern takes priority even when a minutes pattern occurs earlier. -/
theorem infer_max_duration_correct :
    (∀ (q : String) (v : ℚ), searchNumberUnit ("hour".toList) q.toList = some v →
      infer_max_duration q = some (v * 60).floor) ∧
    (∀ q : String, searchNumberUnit ("hour".toList) q.toList = none →
      infer_max_duration q =
        (searchNumberUnit ("min".toList) q.toList).map fun v => (v * 1).floor) ∧
    infer_max_duration "complete within 1.5 hours" = some 90 ∧
    infer_max_duration "should take 40 mins" = some 40 ∧
    infer_max_duration "no time limit mentioned" = none ∧
    infer_max_duration "90 mins or 2 hours" = some 120 := by
  refine ⟨?_, ?_, ?_, ?_, ?_, ?_⟩
  · intro q v h
    simp only [infer_max_duration]
    rw [h]
  · intro q h
    simp only [infer_max_duration]
    rw [h]
    cases hm : searchNumberUnit ("min".toList) q.toList <;> rfl
  · with_unfolding_all decide
  · with_unfolding_all decide
  · with_unfolding_all decide
  · with_unfolding_all decide

/-- Witness for C4: the hours-priority clause applied at a concrete input. -/
theorem infer_max_duration_correct_witness :
    searchNumberUnit ("hour".toList) ("2 hours").toList = some 2 ∧
    infer_max_duration "2 hours" = some ((2 : ℚ) * 60).floor :=
  ⟨by with_unfolding_all decide,
   infer_max_duration_correct.1 "2 hours" 2 (by with_unfolding_all decide)⟩

/-- Counterexample for C5 as stated: the source's cognitive keyword list has
`numeracy`, not `numerical`, so a text containing the substring `numerical`
(and no actual cognitive keyword) leaves the cognitive flag false. -/
theorem infer_desired_domains_numerical_counterexample :
    lowerList "Numerical test" = [] ++ ("numerical".toList) ++ (" test".toList) ∧
    (infer_desired_domains "Numerical test").wants_cognitive = false := by
  constructor
  · decide
  · decide

/-- Claim C5 (amended): `infer_desired_domains` performs a case-insensitive
substring membership test against three fixed keyword sets and returns three
independent booleans; the technical set includes `developer`, `sql`, `coding`,
the behavioral set includes `leadership`, `collaborate`, `team`, and the
cognitive set includes `reasoning`, `aptitude`, and `numeracy` (not
`numerical`) — for every text containing any keyword of a set (in any letter
case) the corresponding flag is true. -/
theorem infer_desired_domains_keywords (q kw : String) :
    (kw ∈ technical_kw → (∃ p s, lowerList q = p ++ kw.toList ++ s) →
      (infer_desired_domains q).wants_technical = true) ∧
    (kw ∈ behavioral_kw → (∃ p s, lowerList q = p ++ kw.toList ++ s) →
      (infer_desired_domains q).wants_behavioral = true) ∧
    (kw ∈ cognitive_kw → (∃ p s, lowerList q = p ++ kw.toList ++ s) →
      (infer_desired_domains q).wants_cognitive = true) := by
  refine ⟨?_, ?_, ?_⟩ <;>
  · rintro hmem ⟨p, s, hdec⟩
    simp only [infer_desired_domains]
    rw [List.any_eq_true]
    exact ⟨kw, hmem, hdec ▸ containsSub_of_parts p kw.toList s⟩

/-- Witness for C5: `sql` is a technical keyword and occurs (case-insensitively)
in `"SQL developer"`, so the technical flag is set there. -/
theorem infer_desired_domains_keywords_witness :
    ("sql" ∈ technical_kw) ∧
    lowerList "SQL developer" = [] ++ ("sql".toList) ++ (" developer".toList) ∧
    (infer_desired_domains "SQL developer").wants_technical = true :=
  ⟨by decide, by decide,
   (infer_desired_domains_keywords "SQL developer" "sql").1 (by decide)
     ⟨[], " developer".toList, by decide⟩⟩

/-- Claim C6: `apply_duration_filter` returns the list unchanged for a `none`
bound; otherwise it keeps exactly the candidates whose duration is absent or
at most the bound, preserving relative order; a 45-minute candidate is kept at
bound 60 and dropped at bound 30, and a candidate with no duration is always
kept. -/
theorem apply_duration_filter_correct :
    (∀ cs : List Candidate, apply_duration_filter cs none = cs) ∧
    (∀ (cs : List Candidate) (m : ℤ),
      apply_duration_filter cs (some m) =
        cs.filter fun c =>
          match c.duration_minutes with
          | none => true
          | some d => decide (d ≤ m)) ∧
    (∀ (cs : List Candidate) (m : ℤ),
      List.Sublist (apply_duration_filter cs (some m)) cs) ∧
    apply_duration_filter [cand45] (some 60) = [cand45] ∧
    apply_duration_filter [cand45] (some 30) = [] ∧
    (∀ m : ℤ, apply_duration_filter [candNoDur] (some m) = [candNoDur]) :=
  ⟨fun _ => rfl, fun _ _ => rfl, fun _ _ => List.filter_sublist _, by decide,
   by decide, fun _ => rfl⟩

/-- Claim C10: `categorize_test_type` maps the single-letter codes by the fixed
table K,V → technical, P,L → behavioral, C,N,R → cognitive, and every absent or
unrecognized code to `other`. -/
theorem categorize_test_type_table :
    categorize_test_type (some "K") = "technical" ∧
    categorize_test_type (some "V") = "technical" ∧
    categorize_test_type (some "P") = "behavioral" ∧
    categorize_test_type (some "L") = "behavioral" ∧
    categorize_test_type (some "C") = "cognitive" ∧
    categorize_test_type (some "N") = "cognitive" ∧
    categorize_test_type (some "R") = "cognitive" ∧
    categorize_test_type none = "other" ∧
    categorize_test_type (some "") = "other" ∧
    (∀ s : String,
      pyStrip (pyUpper s) ∉ (["K", "P", "C", "L", "V", "N", "R"] : List String) →
      categorize_test_type (some s) = "other") := by
  refine ⟨by decide, by decide, by decide, by decide, by decide, by decide,
    by decide, rfl, by decide, ?_⟩
  intro s h
  simp only [categorize_test_type]
  split_ifs with h0 h1 h2 h3 h4 h5 h6 h7
  · rfl
  · exact (h (by rw [h1]; decide)).elim
  · exact (h (by rw [h2]; decide)).elim
  · exact (h (by rw [h3]; decide)).elim
  · exact (h (by rw [h4]; decide)).elim
  · exact (h (by rw [h5]; decide)).elim
  · exact (h (by rw [h6]; decide)).elim
  · exact (h (by rw [h7]; decide)).elim
  · rfl

/-- Claim C3: for every loaded index, query vector and `topK`, `search`
returns at most `min(topK, size())` results, the returned scores are the
second components of the selected `(row, score)` pairs, and those pairs are in
non-increasing score order with ties broken by ascending original row order. -/
theorem search_sorted_bounded (idx : CatalogIndex) (qv : List ℚ) (top_k : ℕ) :
    (idx.searchPairs qv top_k).length ≤ min top_k idx.get_size ∧
    (idx.search qv top_k).1 = (idx.searchPairs qv top_k).map Prod.snd ∧
    (idx.search qv top_k).2.length ≤ min top_k idx.get_size ∧
    (idx.searchPairs qv top_k).Pairwise
      (fun a b => b.2 < a.2 ∨ (a.2 = b.2 ∧ a.1 < b.1)) := by
  have hlen : (idx.searchPairs qv top_k).length ≤ min top_k idx.get_size := by
    unfold CatalogIndex.searchPairs
    exact List.length_take_le _ _
  refine ⟨hlen, rfl, le_trans (List.length_filterMap_le _ _) hlen, ?_⟩
  unfold CatalogIndex.searchPairs
  set scored := (idx.vecs.map fun v => dot (normalize_L2 qv) v).enum with hscored
  have hsorted : (List.insertionSort searchRel scored).Pairwise searchRel :=
    List.sorted_insertionSort searchRel scored
  have hperm := List.perm_insertionSort searchRel scored
  have hnd : ((List.insertionSort searchRel scored).map Prod.fst).Nodup :=
    ((hperm.map Prod.fst).nodup_iff).mpr
      (by rw [hscored]; exact List.nodup_enum_map_fst _)
  have hpw : (List.insertionSort searchRel scored).Pairwise
      (fun a b => a.1 ≠ b.1) := List.pairwise_map.mp hnd
  refine List.Pairwise.imp ?_ ((hsorted.take).and (hpw.take))
  intro a b hab
  obtain ⟨hr, hne⟩ := hab
  unfold searchRel at hr
  rcases hr with h1 | ⟨he, hle⟩
  · exact Or.inl h1
  · exact Or.inr ⟨he, lt_of_le_of_ne hle hne⟩

/-- Claim C9: every successful `recommend` result has length at most `topK`,
is a formatting of retained candidates, and the `synthetic` flag of a
formatted record is true exactly when the candidate's URL is missing. -/
theorem recommend_output_shape (e : RecommendationEngine) (q u : Option String)
    (k : ℕ) (out : List Recommendation)
    (h : RecommendationEngine.recommend e q u k = Except.ok out) :
    out.length ≤ k ∧
    (∃ cands : List Candidate, out = cands.map formatRecommendation) ∧
    (∀ c : Candidate, (formatRecommendation c).synthetic = true ↔ c.url = none) := by
  have hsyn : ∀ c : Candidate,
      (formatRecommendation c).synthetic = true ↔ c.url = none := by
    intro c
    simp [formatRecommendation, Option.isNone_iff_eq_none]
  unfold RecommendationEngine.recommend at h
  split at h
  · exact absurd h (by simp)
  · dsimp only at h
    split at h
    · injection h with h'
      subst h'
      exact ⟨by simp, ⟨[], by simp⟩, hsyn⟩
    · injection h with h'
      subst h'
      refine ⟨?_, ⟨_, rfl⟩, hsyn⟩
      rw [List.length_map]
      exact rerank_length_le _ _ _

/-- Witness for C9: the shape clauses at a concrete engine and query. -/
theorem recommend_output_shape_witness :
    RecommendationEngine.recommend sampleEngine (some "hello") none 3 =
      Except.ok
        [formatRecommendation { sampleCandidate with retrieval_score := some 1 }] ∧
    ([formatRecommendation { sampleCandidate with retrieval_score := some 1 }].length
        ≤ 3 ∧
      (∃ cands : List Candidate,
        [formatRecommendation { sampleCandidate with retrieval_score := some 1 }] =
          cands.map formatRecommendation) ∧
      (∀ c : Candidate,
        (formatRecommendation c).synthetic = true ↔ c.url = none)) :=
  ⟨by rfl, recommend_output_shape sampleEngine (some "hello") none 3 _ (by rfl)⟩

/-- Claim C7 (amended): `normalize_input` concatenates the trimmed query text
and the fetched job-description text with a blank-line separator when both are
given as non-empty strings, returns the fetched text alone when only a
non-empty `jd_url` is given, returns the trimmed query when only a non-empty
query is given, and fails with the InputError when neither a non-empty query
nor a non-empty `jd_url` is supplied (Python truthiness: `""` counts as not
given). -/
theorem normalize_input_cases (svc : RecommenderService) (q u : String) :
    (q ≠ "" → u ≠ "" →
      svc.normalize_input (some q) (some u) =
        Except.ok (pyStrip q ++ "\n\n" ++ svc.fetch_jd_from_url u)) ∧
    (u ≠ "" →
      svc.normalize_input none (some u) = Except.ok (svc.fetch_jd_from_url u)) ∧
    (q ≠ "" → svc.normalize_input (some q) none = Except.ok (pyStrip q)) ∧
    svc.normalize_input none none = Except.error inputErrorMsg ∧
    svc.normalize_input (some "") none = Except.error inputErrorMsg ∧
    svc.normalize_input none (some "") = Except.error inputErrorMsg ∧
    svc.normalize_input (some "") (some "") = Except.error inputErrorMsg := by
  refine ⟨?_, ?_, ?_, rfl, rfl, rfl, rfl⟩
  · intro hq hu
    simp [RecommenderService.normalize_input, optTruthy, hq, hu]
  · intro hu
    simp [RecommenderService.normalize_input, optTruthy, hu]
  · intro hq
    simp [RecommenderService.normalize_input, optTruthy, hq]

/-- Witness for C7: the two-inputs clause at concrete non-empty inputs. -/
theorem normalize_input_cases_witness :
    ("hi " ≠ "") ∧ ("u" ≠ "") ∧
    RecommenderService.normalize_input sampleService (some "hi ") (some "u") =
      Except.ok (pyStrip "hi " ++ "\n\n" ++
        RecommenderService.fetch_jd_from_url sampleService "u") :=
  ⟨by decide, by decide,
   (normalize_input_cases sampleService "hi " "u").1 (by decide) (by decide)⟩

/-- Counterexample for C7 as stated: with queryText given as `""` and a jdUrl
given, the code returns the fetched text alone, not the trimmed query, a
blank-line separator, and the fetched text. -/
theorem normalize_input_empty_query_counterexample :
    RecommenderService.normalize_input sampleService (some "") (some "u") =
      Except.ok "JD TEXT" ∧
    ("JD TEXT" : String) ≠ pyStrip "" ++ "\n\n" ++ "JD TEXT" := by
  constructor
  · rfl
  · decide

/-- Claim C1 (amended): `recommend(query=None, jdUrl=None, topK)` raises
InputError, and `recommend(query="", jdUrl=None, topK)` ALSO raises
InputError — the empty string is treated as absent input by Python truthiness,
not as an empty-string query. -/
theorem recommend_requires_input (e : RecommendationEngine) (k : ℕ) :
    RecommendationEngine.recommend e none none k = Except.error inputErrorMsg ∧
    RecommendationEngine.recommend e (some "") none k = Except.error inputErrorMsg :=
  ⟨rfl, rfl⟩

/-- Counterexample for C1 as stated: over a non-empty one-item index, the
empty-string query is rejected with the InputError instead of producing a
ranked result. -/
theorem recommend_empty_query_counterexample :
    CatalogIndex.get_size sampleEngine.service.index ≠ 0 ∧
    RecommendationEngine.recommend sampleEngine (some "") none 10 =
      Except.error inputErrorMsg := by
  constructor
  · decide
  · rfl

/-- Witness for C10: the unrecognized-code clause applied at `"X"`. -/
theorem categorize_test_type_table_witness :
    (pyStrip (pyUpper "X") ∉ (["K", "P", "C", "L", "V", "N", "R"] : List String)) ∧
    categorize_test_type (some "X") = "other" :=
  ⟨by decide, categorize_test_type_table.2.2.2.2.2.2.2.2.2 "X" (by decide)⟩

end SHL
